import Mathlib

/-!
Verification of the feature-encoding and prediction helper of the
premium-prediction repository (source file: prediction_helper.py).

The Python code is shallowly embedded:
* strings are Lean `String` / `List Char`; Python `str.lower` is
  `Char.toLower` mapped over the characters, Python `str.split(" & ")`
  is the hand-rolled leftmost-first splitter `pySplitAmp`;
* a single-row pandas DataFrame is an ordered association list from
  column names to values (`DataFrameRow`), where column assignment
  updates an existing column in place and appends a fresh column at the
  end, exactly as pandas does on a one-row frame;
* the raw input dictionary is an association list of key/value pairs
  (`RawInput`); Python scalars are `Value.num` (rationals, standing for
  Python ints/floats) or `Value.str`;
* the opaque scaler and model artifacts are records carrying the
  declared column subset and an abstract transform / predict function;
* Python exceptions are an explicit error type `PyError` threaded
  through `Except`.
-/

/-- Values stored in the raw-input dictionary and in DataFrame cells:
either a Python string or a Python number (modelled as a rational). -/
inductive Value where
  | str (s : String)
  | num (q : ℚ)
deriving DecidableEq, Repr

/-- Python exceptions that the helper can raise. -/
inductive PyError where
  | keyError (key : String)
  | attributeError (attr : String)
  | typeError
  | valueError
  | indexError
deriving DecidableEq, Repr

/-- Raw input dictionary (`input_dict`), as an association list of its
items in insertion order.  A Python dict never repeats a key; theorems
that need this add a `Nodup` hypothesis on the keys. -/
abbrev RawInput := List (String × Value)

/-- One-row pandas DataFrame: ordered association list from column
names to cell values. -/
abbrev DataFrameRow := List (String × Value)

/-- Python `str.split(" & ")` on a list of characters: leftmost-first
scan for the separator `" & "`, splitting into chunks.  On the empty
string it yields `[""]`, as in Python. -/
def pySplitAmp : List Char → List (List Char)
  | [] => [[]]
  | ' ' :: '&' :: ' ' :: rest => [] :: pySplitAmp rest
  | c :: rest =>
    match pySplitAmp rest with
    | [] => [[c]]
    | chunk :: chunks => (c :: chunk) :: chunks

/-- The character list of the separator `" & "`. -/
def sepAmp : List Char := [' ', '&', ' ']

/-- The `risk_scores` dictionary lookup `risk_scores.get(disease, 0)`
from `calculate_normalized_risk`: fixed severity weight per condition
name, `0` for anything unrecognized. -/
def risk_scores_get (disease : List Char) : ℕ :=
  if disease = "diabetes".data then 6
  else if disease = "heart disease".data then 8
  else if disease = "high blood pressure".data then 6
  else if disease = "thyroid".data then 5
  else if disease = "no disease".data then 0
  else if disease = "none".data then 0
  else 0

/-- `calculate_normalized_risk(medical_history)`: lowercase, split on
`" & "`, sum the severity weights, and normalize by the fixed maximum
`14` (with the code's literal `(total - min) / (max - min)` shape). -/
def calculate_normalized_risk (medical_history : String) : ℚ :=
  let diseases := pySplitAmp (medical_history.data.map Char.toLower)
  let total_risk_score : ℕ := (diseases.map risk_scores_get).sum
  let max_score : ℚ := 14
  let min_score : ℚ := 0
  ((total_risk_score : ℚ) - min_score) / (max_score - min_score)

/-- Weight table exactly as the specification words it: "the weights
diabetes=6, heart disease=8, high blood pressure=6, thyroid=5,
no disease=0, none=0 (any unrecognized part contributing 0)".
Used only to compare the code's function against the claim. -/
def spec_condition_weight (part : String) : ℕ :=
  if part = "diabetes" then 6
  else if part = "heart disease" then 8
  else if part = "high blood pressure" then 6
  else if part = "thyroid" then 5
  else if part = "no disease" then 0
  else if part = "none" then 0
  else 0

/-- Normalized risk as the specification words it: "the sum, over the
parts of s split on the separator " & " after lowercasing, of the
weights ..., divided by 14". -/
def spec_normalized_risk (s : String) : ℚ :=
  (((pySplitAmp (s.data.map Char.toLower)).map
      (fun p => spec_condition_weight (String.mk p))).sum : ℚ) / 14

/-- The condition names the weight table recognizes. -/
def known_conditions : List String :=
  ["diabetes", "heart disease", "high blood pressure", "thyroid",
   "no disease", "none"]

/-- Joining a list of condition names with the separator `" & "`, the
shape of medical-history strings the specification quantifies over. -/
def joinConds : List String → String
  | [] => ""
  | [c] => c
  | c :: rest => c ++ " & " ++ joinConds rest

/-- Column names of a one-row DataFrame, in order. -/
def colNames (df : DataFrameRow) : List String := df.map Prod.fst

/-- Reading a column (`df["c"]`), or looking a key up in the raw input
dictionary (`input_dict[k]`): first matching entry, if any. -/
def getCol : DataFrameRow → String → Option Value
  | [], _ => none
  | (c, v) :: rest, c2 => if c = c2 then some v else getCol rest c2

/-- Column assignment `df["c"] = v` on a one-row DataFrame: overwrite
the column where it exists, append a new column at the end otherwise
(pandas appends fresh columns on the right). -/
def setCol (df : DataFrameRow) (c : String) (v : Value) : DataFrameRow :=
  if c ∈ colNames df then df.map (fun p => if p.1 = c then (c, v) else p)
  else df ++ [(c, v)]

/-- Dropping a column (`df.drop(c, axis="columns")`). -/
def dropCol (df : DataFrameRow) (c : String) : DataFrameRow :=
  df.filter (fun p => p.1 ≠ c)

/-- Assigning a list of columns at once
(`df[cols] = matrix`, column by column). -/
def setCols (df : DataFrameRow) (updates : List (String × Value)) : DataFrameRow :=
  updates.foldl (fun d p => setCol d p.1 p.2) df

/-- Reading the sub-frame `df[cols]`: the values of the named columns,
or a `KeyError` naming the first missing column, as pandas raises. -/
def readCols (df : DataFrameRow) : List String → Except PyError (List Value)
  | [] => .ok []
  | c :: rest =>
    match getCol df c with
    | none => .error (.keyError c)
    | some v =>
      match readCols df rest with
      | .error e => .error e
      | .ok vs => .ok (v :: vs)

/-- The fitted transform inside a scaler bundle (`scaler.transform`),
opaque: an arbitrary function on the vector of selected column values. -/
structure FittedScaler where
  transform : List Value → List Value

/-- A scaler artifact (`scaler_young` / `scaler_rest`): the dict
pairing the declared column subset with the fitted transform. -/
structure ScalerBundle where
  cols_to_scale : List String
  scaler : FittedScaler

/-- A regression model artifact (`model_young` / `model_rest`),
opaque: `model.predict` maps the one-row frame to a list of
predictions. -/
structure RegressionModel where
  predict : DataFrameRow → List ℚ

/-- The scaler dispatch in `handle_scaling`:
`scaler_young if age <= 25 else scaler_rest`. -/
def select_scaler (scaler_young scaler_rest : ScalerBundle) (age : ℚ) :
    ScalerBundle :=
  if age ≤ 25 then scaler_young else scaler_rest

/-- The model dispatch in `predict`:
`model_young if input_dict["Age"] <= 25 else model_rest`. -/
def select_model (model_young model_rest : RegressionModel) (age : ℚ) :
    RegressionModel :=
  if age ≤ 25 then model_young else model_rest

/-- `handle_scaling(age, df)`: pick the scaler bundle by age bracket,
insert the placeholder column `income_level = 0`, transform the
declared column subset in place, drop the placeholder, and return the
frame.  A non-numeric age fails the `age <= 25` comparison
(`TypeError`); a declared column missing from the frame is a
`KeyError`; a transform output of the wrong width is a `ValueError`. -/
def handle_scaling (scaler_young scaler_rest : ScalerBundle) (age : Value)
    (df : DataFrameRow) : Except PyError DataFrameRow :=
  match age with
  | .str _ => .error .typeError
  | .num a =>
    let scaler_object := select_scaler scaler_young scaler_rest a
    let cols_to_scale := scaler_object.cols_to_scale
    let df1 := setCol df "income_level" (.num 0)
    match readCols df1 cols_to_scale with
    | .error e => .error e
    | .ok vals =>
      let scaled := scaler_object.scaler.transform vals
      if scaled.length = cols_to_scale.length then
        .ok (dropCol (setCols df1 (cols_to_scale.zip scaled)) "income_level")
      else .error .valueError

/-- The fixed feature-row schema (`expected_columns`). -/
def expected_columns : List String :=
  ["age",
   "number_of_dependants",
   "income_lakhs",
   "insurance_plan",
   "genetical_risk",
   "normalized_risk_score",
   "gender_Male",
   "region_Northwest",
   "region_Southeast",
   "region_Southwest",
   "marital_status_Unmarried",
   "bmi_category_Obesity",
   "bmi_category_Overweight",
   "bmi_category_Underweight",
   "smoking_status_Occasional",
   "smoking_status_Regular",
   "employment_status_Salaried",
   "employment_status_Self-Employed"]

/-- `insurance_plan_encoding.get(value, 1)`: Bronze, Silver, Gold map
to 1, 2, 3; every other value takes the default 1. -/
def insurance_plan_encoding_get (v : Value) : ℚ :=
  match v with
  | .str "Bronze" => 1
  | .str "Silver" => 2
  | .str "Gold" => 3
  | _ => 1

/-- The all-zero initial frame
`pd.DataFrame(0, columns=expected_columns, index=[0])`. -/
def df_init : DataFrameRow := expected_columns.map (fun c => (c, Value.num 0))

/-- One iteration of the `for key, value in input_dict.items()` loop in
`preprocess_input`: the `elif` chain dispatching on the key (and, for
the categorical fields, on the value). -/
def apply_entry (df : DataFrameRow) (entry : String × Value) : DataFrameRow :=
  match entry with
  | (key, value) =>
    if key = "Gender" then
      if value = .str "Male" then setCol df "gender_Male" (.num 1) else df
    else if key = "Region" then
      match value with
      | .str s =>
        if s = "Northwest" ∨ s = "Southeast" ∨ s = "Southwest" then
          setCol df ("region_" ++ s) (.num 1)
        else df
      | .num _ => df
    else if key = "Marital Status" then
      if value = .str "Unmarried" then
        setCol df "marital_status_Unmarried" (.num 1)
      else df
    else if key = "BMI Category" then
      match value with
      | .str s =>
        if s = "Obesity" ∨ s = "Overweight" ∨ s = "Underweight" then
          setCol df ("bmi_category_" ++ s) (.num 1)
        else df
      | .num _ => df
    else if key = "Smoking Status" then
      match value with
      | .str s =>
        if s = "Occasional" ∨ s = "Regular" then
          setCol df ("smoking_status_" ++ s) (.num 1)
        else df
      | .num _ => df
    else if key = "Employment Status" then
      match value with
      | .str s =>
        if s = "Salaried" ∨ s = "Self-Employed" then
          setCol df ("employment_status_" ++ s) (.num 1)
        else df
      | .num _ => df
    else if key = "Insurance Plan" then
      setCol df "insurance_plan" (.num (insurance_plan_encoding_get value))
    else if key = "Age" then setCol df "age" value
    else if key = "Number of Dependants" then
      setCol df "number_of_dependants" value
    else if key = "Income in Lakhs" then setCol df "income_lakhs" value
    else if key = "Genetical Risk" then setCol df "genetical_risk" value
    else df

/-- The whole mapping loop of `preprocess_input` (lines building the
frame from the raw input, before the risk score and the scaling). -/
def encode_features (input_dict : RawInput) : DataFrameRow :=
  input_dict.foldl apply_entry df_init

/-- Characterization device for the loop body: the single column/value
pair a dictionary entry writes, if any.  `apply_entry` is proved equal
to performing exactly this optional write. -/
def entryWrite (entry : String × Value) : Option (String × Value) :=
  match entry with
  | (key, value) =>
    if key = "Gender" then
      if value = .str "Male" then some ("gender_Male", .num 1) else none
    else if key = "Region" then
      match value with
      | .str s =>
        if s = "Northwest" ∨ s = "Southeast" ∨ s = "Southwest" then
          some ("region_" ++ s, .num 1)
        else none
      | .num _ => none
    else if key = "Marital Status" then
      if value = .str "Unmarried" then
        some ("marital_status_Unmarried", .num 1)
      else none
    else if key = "BMI Category" then
      match value with
      | .str s =>
        if s = "Obesity" ∨ s = "Overweight" ∨ s = "Underweight" then
          some ("bmi_category_" ++ s, .num 1)
        else none
      | .num _ => none
    else if key = "Smoking Status" then
      match value with
      | .str s =>
        if s = "Occasional" ∨ s = "Regular" then
          some ("smoking_status_" ++ s, .num 1)
        else none
      | .num _ => none
    else if key = "Employment Status" then
      match value with
      | .str s =>
        if s = "Salaried" ∨ s = "Self-Employed" then
          some ("employment_status_" ++ s, .num 1)
        else none
      | .num _ => none
    else if key = "Insurance Plan" then
      some ("insurance_plan", .num (insurance_plan_encoding_get value))
    else if key = "Age" then some ("age", value)
    else if key = "Number of Dependants" then
      some ("number_of_dependants", value)
    else if key = "Income in Lakhs" then some ("income_lakhs", value)
    else if key = "Genetical Risk" then some ("genetical_risk", value)
    else none

/-- The raw-input keys the loop recognizes, paired with the feature
column that key can write.  Distinct keys never write the same column,
which is what makes the loop order-independent. -/
def writable_pairs : List (String × String) :=
  [("Gender", "gender_Male"),
   ("Region", "region_Northwest"),
   ("Region", "region_Southeast"),
   ("Region", "region_Southwest"),
   ("Marital Status", "marital_status_Unmarried"),
   ("BMI Category", "bmi_category_Obesity"),
   ("BMI Category", "bmi_category_Overweight"),
   ("BMI Category", "bmi_category_Underweight"),
   ("Smoking Status", "smoking_status_Occasional"),
   ("Smoking Status", "smoking_status_Regular"),
   ("Employment Status", "employment_status_Salaried"),
   ("Employment Status", "employment_status_Self-Employed"),
   ("Insurance Plan", "insurance_plan"),
   ("Age", "age"),
   ("Number of Dependants", "number_of_dependants"),
   ("Income in Lakhs", "income_lakhs"),
   ("Genetical Risk", "genetical_risk")]

/-- The one-hot feature columns, each paired with the raw-input key and
the exact string value whose entry sets it to 1.  Every one-hot column
stays at its baseline 0 unless its triggering key/value pair occurs in
the raw input: this is the closed table behind the permissive
"unrecognized value is silently ignored" policy. -/
def onehot_triggers : List (String × String × String) :=
  [("gender_Male", "Gender", "Male"),
   ("region_Northwest", "Region", "Northwest"),
   ("region_Southeast", "Region", "Southeast"),
   ("region_Southwest", "Region", "Southwest"),
   ("marital_status_Unmarried", "Marital Status", "Unmarried"),
   ("bmi_category_Obesity", "BMI Category", "Obesity"),
   ("bmi_category_Overweight", "BMI Category", "Overweight"),
   ("bmi_category_Underweight", "BMI Category", "Underweight"),
   ("smoking_status_Occasional", "Smoking Status", "Occasional"),
   ("smoking_status_Regular", "Smoking Status", "Regular"),
   ("employment_status_Salaried", "Employment Status", "Salaried"),
   ("employment_status_Self-Employed", "Employment Status",
    "Self-Employed")]

/-- `preprocess_input(input_dict)`: run the mapping loop, compute the
normalized risk score from the required key `"Medical History"`
(`KeyError` when absent, `AttributeError` on `.lower()` when not a
string), then scale using the required key `"Age"` (`KeyError` when
absent). -/
def preprocess_input (scaler_young scaler_rest : ScalerBundle)
    (input_dict : RawInput) : Except PyError DataFrameRow :=
  let df := encode_features input_dict
  match getCol input_dict "Medical History" with
  | none => .error (.keyError "Medical History")
  | some (.num _) => .error (.attributeError "lower")
  | some (.str mh) =>
    let df2 := setCol df "normalized_risk_score"
      (.num (calculate_normalized_risk mh))
    match getCol input_dict "Age" with
    | none => .error (.keyError "Age")
    | some ageVal => handle_scaling scaler_young scaler_rest ageVal df2

/-- Python `int()` applied to a rational: truncation toward zero. -/
def pyInt (q : ℚ) : ℤ := if 0 ≤ q then ⌊q⌋ else ⌈q⌉

/-- `predict(input_dict)`: preprocess, select the model by the same
`age <= 25` rule, invoke it on the frame, and return
`int(prediction[0])` (an `IndexError` if the model returns no
predictions). -/
def predict (model_young model_rest : RegressionModel)
    (scaler_young scaler_rest : ScalerBundle) (input_dict : RawInput) :
    Except PyError ℤ :=
  match preprocess_input scaler_young scaler_rest input_dict with
  | .error e => .error e
  | .ok input_df =>
    match getCol input_dict "Age" with
    | none => .error (.keyError "Age")
    | some (.str _) => .error .typeError
    | some (.num a) =>
      let model := select_model model_young model_rest a
      match model.predict input_df with
      | [] => .error .indexError
      | p :: _ => .ok (pyInt p)

/-- A concrete scaler bundle used to instantiate witnesses: it declares
the age, income and placeholder columns and transforms them
identically. -/
def witnessScaler : ScalerBundle :=
  ⟨["age", "income_lakhs", "income_level"], ⟨fun vals => vals⟩⟩

/-- A second, observably different concrete scaler bundle. -/
def witnessScalerB : ScalerBundle := ⟨["age"], ⟨fun vals => vals⟩⟩

/-- A concrete regression model used to instantiate witnesses. -/
def witnessModel : RegressionModel := ⟨fun _ => [(3 : ℚ) / 2]⟩

/-- A second, observably different concrete regression model. -/
def witnessModelB : RegressionModel := ⟨fun _ => []⟩

/-- A concrete raw input exercising every recognized key. -/
def witnessInput : RawInput :=
  [("Age", .num 22), ("Gender", .str "Male"), ("Region", .str "Southeast"),
   ("Marital Status", .str "Unmarried"), ("BMI Category", .str "Normal"),
   ("Smoking Status", .str "Never"), ("Employment Status", .str "Salaried"),
   ("Insurance Plan", .str "Gold"), ("Number of Dependants", .num 2),
   ("Income in Lakhs", .num 10), ("Genetical Risk", .num 3),
   ("Medical History", .str "diabetes")]

/- ### Lemmas about the splitter -/

theorem pySplitAmp_ne_nil (l : List Char) : pySplitAmp l ≠ [] := by
  induction l with
  | nil => simp [pySplitAmp]
  | cons c rest ih =>
    rw [pySplitAmp.eq_def]
    split
    · simp
    · simp
    · rename_i c2 rest2 hne heq
      injection heq with h1 h2
      subst h1; subst h2
      cases hsplit : pySplitAmp rest with
      | nil => exact absurd hsplit ih
      | cons chunk chunks => simp [hsplit]

theorem pySplitAmp_sep (rest : List Char) :
    pySplitAmp (' ' :: '&' :: ' ' :: rest) = [] :: pySplitAmp rest := rfl

theorem pySplitAmp_cons_default (c : Char) (rest : List Char)
    (h : ∀ r, ¬ (c = ' ' ∧ rest = '&' :: ' ' :: r)) :
    pySplitAmp (c :: rest) =
      match pySplitAmp rest with
      | [] => [[c]]
      | chunk :: chunks => (c :: chunk) :: chunks := by
  rw [pySplitAmp.eq_def]
  split
  · rename_i heq
    exact absurd heq (by simp)
  · rename_i r heq
    injection heq with h1 h2
    exact absurd ⟨h1, h2⟩ (h r)
  · rename_i c2 rest2 hne heq
    injection heq with h1 h2
    subst h1; subst h2; rfl

theorem pySplitAmp_no_amp (a : List Char) (ha : '&' ∉ a) :
    pySplitAmp a = [a] := by
  induction a with
  | nil => rfl
  | cons c rest ih =>
    have hrest : '&' ∉ rest := fun hm => ha (List.mem_cons_of_mem _ hm)
    rw [pySplitAmp_cons_default c rest]
    · rw [ih hrest]
    · intro r ⟨hc, hr⟩
      apply hrest
      rw [hr]; simp

theorem pySplitAmp_append_sep (a b : List Char) (ha : '&' ∉ a) :
    pySplitAmp (a ++ sepAmp ++ b) = a :: pySplitAmp b := by
  induction a with
  | nil => simpa [sepAmp] using pySplitAmp_sep b
  | cons c a2 ih =>
    have ha2 : '&' ∉ a2 := fun hm => ha (List.mem_cons_of_mem _ hm)
    have hstep : pySplitAmp (c :: (a2 ++ sepAmp ++ b)) =
        match pySplitAmp (a2 ++ sepAmp ++ b) with
        | [] => [[c]]
        | chunk :: chunks => (c :: chunk) :: chunks := by
      apply pySplitAmp_cons_default
      intro r ⟨hc, hr⟩
      cases a2 with
      | nil =>
        simp [sepAmp] at hr
      | cons d a3 =>
        have hd : d = '&' := by
          have := congrArg (fun l => l.head?) hr
          simpa using this
        exact ha (by rw [hd]; simp)
    have : (c :: a2) ++ sepAmp ++ b = c :: (a2 ++ sepAmp ++ b) := by simp
    rw [this, hstep, ih ha2]

/- ### The risk score over joined condition lists -/

theorem known_conditions_lower_amp :
    ∀ c ∈ known_conditions, c.data.map Char.toLower = c.data ∧ '&' ∉ c.data := by
  decide

theorem joinConds_cons_cons (c c2 : String) (rest : List String) :
    joinConds (c :: c2 :: rest) = c ++ " & " ++ joinConds (c2 :: rest) := rfl

theorem pySplitAmp_lower_joinConds (l : List String) (hne : l ≠ [])
    (hl : ∀ c ∈ l, c ∈ known_conditions) :
    pySplitAmp ((joinConds l).data.map Char.toLower) = l.map String.data := by
  induction l with
  | nil => exact absurd rfl hne
  | cons c rest ih =>
    obtain ⟨hlow, hamp⟩ := known_conditions_lower_amp c (hl c (by simp))
    cases rest with
    | nil =>
      show pySplitAmp (c.data.map Char.toLower) = [c.data]
      rw [hlow]
      exact pySplitAmp_no_amp c.data hamp
    | cons c2 rest2 =>
      have hrest : ∀ x ∈ c2 :: rest2, x ∈ known_conditions := fun x hx =>
        hl x (List.mem_cons_of_mem _ hx)
      rw [joinConds_cons_cons]
      have hdata : (c ++ " & " ++ joinConds (c2 :: rest2)).data =
          c.data ++ sepAmp ++ (joinConds (c2 :: rest2)).data := by
        rw [String.data_append, String.data_append]
        rfl
      rw [hdata, List.map_append, List.map_append, hlow]
      have hsep : sepAmp.map Char.toLower = sepAmp := rfl
      rw [hsep, pySplitAmp_append_sep _ _ hamp, ih (by simp) hrest]
      rfl

theorem calculate_normalized_risk_joinConds (l : List String)
    (hl : ∀ c ∈ l, c ∈ known_conditions) :
    calculate_normalized_risk (joinConds l) =
      ((l.map (fun c => risk_scores_get c.data)).sum : ℚ) / 14 := by
  cases l with
  | nil =>
    have h0 : ((pySplitAmp (("" : String).data.map Char.toLower)).map
        risk_scores_get).sum = 0 := by decide
    rw [show joinConds [] = "" from rfl, calculate_normalized_risk, h0]
    norm_num
  | cons c rest =>
    rw [calculate_normalized_risk,
        pySplitAmp_lower_joinConds (c :: rest) (by simp) hl]
    rw [List.map_map]
    norm_num
    rfl

theorem risk_scores_get_eq_spec_weight (p : List Char) :
    risk_scores_get p = spec_condition_weight (String.mk p) := by
  simp only [risk_scores_get, spec_condition_weight, String.ext_iff]

/-- C1: for every medical-history string, `calculate_normalized_risk`
is the sum of the table weights over the lowercased `" & "`-separated
parts, divided by 14; in particular it is `0` on `"none"` and
`14 / 14 = 1` on `"heart disease & diabetes"`. -/
theorem c1_normalized_risk_formula :
    (∀ s : String, calculate_normalized_risk s = spec_normalized_risk s) ∧
    calculate_normalized_risk "none" = 0 ∧
    calculate_normalized_risk "heart disease & diabetes" = 14 / 14 ∧
    (14 : ℚ) / 14 = 1 := by
  refine ⟨fun s => ?_, ?_, ?_, by norm_num⟩
  · rw [calculate_normalized_risk, spec_normalized_risk,
        List.map_congr_left (fun p _ => risk_scores_get_eq_spec_weight p)]
    norm_num
  · have h : ((pySplitAmp ("none".data.map Char.toLower)).map
        risk_scores_get).sum = 0 := by decide
    rw [calculate_normalized_risk, h]
    norm_num
  · have h : ((pySplitAmp ("heart disease & diabetes".data.map
        Char.toLower)).map risk_scores_get).sum = 14 := by decide
    rw [calculate_normalized_risk, h]
    norm_num

/-- C4 counterexample: the string "diabetes & heart disease & thyroid"
is composed only of known condition names joined by " & ", yet its
normalized risk score is 19/14, strictly greater than 1 — the claimed
upper bound of the range [0,1] fails. -/
theorem c4_counterexample :
    joinConds ["diabetes", "heart disease", "thyroid"] =
        "diabetes & heart disease & thyroid" ∧
    (∀ c ∈ ["diabetes", "heart disease", "thyroid"],
        c ∈ known_conditions) ∧
    1 < calculate_normalized_risk "diabetes & heart disease & thyroid" := by
  refine ⟨rfl, by decide, ?_⟩
  have h : ((pySplitAmp ("diabetes & heart disease & thyroid".data.map
      Char.toLower)).map risk_scores_get).sum = 19 := by decide
  rw [calculate_normalized_risk, h]
  norm_num

/-- C4 (amended): for strings composed only of known condition names
joined by " & ", the normalized risk score is nonnegative and monotone
non-decreasing under appending a further condition, and for lists of
distinct conditions it is bounded by 25/14 — but not by 1 (see the
counterexample). -/
theorem c4_amended (l : List String) (c : String)
    (hl : ∀ x ∈ l, x ∈ known_conditions) (hc : c ∈ known_conditions) :
    0 ≤ calculate_normalized_risk (joinConds l) ∧
    calculate_normalized_risk (joinConds l) ≤
      calculate_normalized_risk (joinConds (l ++ [c])) ∧
    (l.Nodup → calculate_normalized_risk (joinConds l) ≤ 25 / 14) := by
  have hl2 : ∀ x ∈ l ++ [c], x ∈ known_conditions := by
    intro x hx
    rcases List.mem_append.mp hx with h | h
    · exact hl x h
    · simp only [List.mem_singleton] at h
      exact h ▸ hc
  rw [calculate_normalized_risk_joinConds l hl,
      calculate_normalized_risk_joinConds _ hl2]
  refine ⟨by positivity, ?_, ?_⟩
  · rw [div_le_div_iff_of_pos_right (by norm_num : (0 : ℚ) < 14)]
    rw [Nat.cast_le, List.map_append, List.sum_append]
    exact Nat.le_add_right _ _
  · intro hnodup
    rw [div_le_div_iff_of_pos_right (by norm_num : (0 : ℚ) < 14)]
    have hsub : (l.map (fun c => risk_scores_get c.data)).sum ≤
        (known_conditions.map (fun c => risk_scores_get c.data)).sum := by
      obtain ⟨l2, hperm, hsublist⟩ :=
        List.subperm_of_subset hnodup (fun x hx => hl x hx)
      calc (l.map (fun c => risk_scores_get c.data)).sum
          = (l2.map (fun c => risk_scores_get c.data)).sum :=
            ((hperm.map _).sum_eq).symm
        _ ≤ _ := (hsublist.map _).sum_le_sum (fun a _ => Nat.zero_le a)
    have h25 : (known_conditions.map
        (fun c => risk_scores_get c.data)).sum = 25 := by decide
    rw [h25] at hsub
    calc ((l.map (fun c => risk_scores_get c.data)).sum : ℚ)
        ≤ (25 : ℕ) := by exact_mod_cast hsub
      _ = 25 := by norm_num

/-- Witness instantiating `c4_amended` at a concrete condition list. -/
theorem c4_amended_witness :
    (∀ x ∈ ["heart disease"], x ∈ known_conditions) ∧
    "diabetes" ∈ known_conditions ∧
    (0 ≤ calculate_normalized_risk (joinConds ["heart disease"]) ∧
     calculate_normalized_risk (joinConds ["heart disease"]) ≤
       calculate_normalized_risk
         (joinConds (["heart disease"] ++ ["diabetes"])) ∧
     (["heart disease"].Nodup →
        calculate_normalized_risk (joinConds ["heart disease"]) ≤ 25 / 14)) :=
  ⟨by decide, by decide, c4_amended _ _ (by decide) (by decide)⟩

/- ### Basic lemmas about the one-row DataFrame operations -/

theorem getCol_eq_none_iff (df : DataFrameRow) (c : String) :
    getCol df c = none ↔ c ∉ colNames df := by
  induction df with
  | nil => simp [getCol, colNames]
  | cons p rest ih =>
    obtain ⟨c0, v0⟩ := p
    by_cases h : c0 = c
    · subst h
      simp [getCol, colNames]
    · simp only [getCol, if_neg h, colNames, List.map_cons, List.mem_cons]
      rw [ih]
      unfold colNames
      constructor
      · rintro hc (hc1 | hc2)
        · exact h hc1.symm
        · exact hc hc2
      · intro hc
        exact fun hm => hc (Or.inr hm)

theorem mem_colNames_of_getCol_eq_some (df : DataFrameRow) (c : String)
    (v : Value) (h : getCol df c = some v) : c ∈ colNames df := by
  by_contra hc
  rw [← getCol_eq_none_iff] at hc
  rw [h] at hc
  cases hc

theorem colNames_setCol_of_mem (df : DataFrameRow) (c : String) (v : Value)
    (h : c ∈ colNames df) : colNames (setCol df c v) = colNames df := by
  rw [setCol, if_pos h]
  simp only [colNames, List.map_map]
  apply List.map_congr_left
  intro p _
  by_cases hpc : p.1 = c
  · simp [Function.comp, hpc]
  · simp [Function.comp, hpc]

theorem colNames_setCol_of_not_mem (df : DataFrameRow) (c : String) (v : Value)
    (h : c ∉ colNames df) : colNames (setCol df c v) = colNames df ++ [c] := by
  rw [setCol, if_neg h]
  simp [colNames]

theorem colNames_cons (p : String × Value) (rest : List (String × Value)) :
    colNames (p :: rest) = p.1 :: colNames rest := rfl

theorem getCol_map_update (df : DataFrameRow) (c : String) (v : Value)
    (h : c ∈ colNames df) :
    getCol (df.map (fun p => if p.1 = c then (c, v) else p)) c = some v := by
  induction df with
  | nil => cases h
  | cons p rest ih =>
    obtain ⟨c0, v0⟩ := p
    by_cases h0 : c0 = c
    · have hhead : (if ((c0, v0) : String × Value).1 = c then (c, v) else (c0, v0))
          = (c, v) := by simp [h0]
      rw [List.map_cons, hhead]
      simp [getCol]
    · have hr : c ∈ colNames rest := by
        rw [colNames_cons] at h
        rcases List.mem_cons.mp h with h1 | h1
        · exact absurd h1.symm h0
        · exact h1
      have hhead : (if ((c0, v0) : String × Value).1 = c then (c, v) else (c0, v0))
          = (c0, v0) := by simp [h0]
      rw [List.map_cons, hhead]
      simp only [getCol, if_neg h0]
      exact ih hr

theorem getCol_append_single (df : DataFrameRow) (c : String) (v : Value)
    (h : c ∉ colNames df) : getCol (df ++ [(c, v)]) c = some v := by
  induction df with
  | nil => simp [getCol]
  | cons p rest ih =>
    obtain ⟨c0, v0⟩ := p
    have h0 : ¬ c0 = c := fun hc =>
      h (by rw [colNames_cons]; exact List.mem_cons.mpr (Or.inl hc.symm))
    have hr : c ∉ colNames rest := fun hc =>
      h (by rw [colNames_cons]; exact List.mem_cons.mpr (Or.inr hc))
    simp only [List.cons_append, getCol, if_neg h0]
    exact ih hr

theorem getCol_setCol_self (df : DataFrameRow) (c : String) (v : Value) :
    getCol (setCol df c v) c = some v := by
  rw [setCol]
  split_ifs with h
  · exact getCol_map_update df c v h
  · exact getCol_append_single df c v h

theorem getCol_map_update_ne (df : DataFrameRow) (c : String) (v : Value)
    (c2 : String) (h : c2 ≠ c) :
    getCol (df.map (fun p => if p.1 = c then (c, v) else p)) c2 = getCol df c2 := by
  induction df with
  | nil => rfl
  | cons p rest ih =>
    obtain ⟨c0, v0⟩ := p
    by_cases h0 : c0 = c
    · have hhead : (if ((c0, v0) : String × Value).1 = c then (c, v) else (c0, v0))
          = (c, v) := by simp [h0]
      rw [List.map_cons, hhead]
      have hne : ¬ c = c2 := fun hc => h hc.symm
      have hne0 : ¬ c0 = c2 := h0 ▸ hne
      simp only [getCol, if_neg hne, if_neg hne0]
      exact ih
    · have hhead : (if ((c0, v0) : String × Value).1 = c then (c, v) else (c0, v0))
          = (c0, v0) := by simp [h0]
      rw [List.map_cons, hhead]
      by_cases h2 : c0 = c2
      · simp [getCol, h2]
      · simp only [getCol, if_neg h2]
        exact ih

theorem getCol_append_single_ne (df : DataFrameRow) (c : String) (v : Value)
    (c2 : String) (h : c2 ≠ c) :
    getCol (df ++ [(c, v)]) c2 = getCol df c2 := by
  induction df with
  | nil =>
    have hne : ¬ c = c2 := fun hc => h hc.symm
    simp [getCol, if_neg hne]
  | cons p rest ih =>
    obtain ⟨c0, v0⟩ := p
    by_cases h0 : c0 = c2
    · simp [getCol, h0]
    · simp only [List.cons_append, getCol, if_neg h0]
      exact ih

theorem getCol_setCol_ne (df : DataFrameRow) (c : String) (v : Value)
    (c2 : String) (h : c2 ≠ c) :
    getCol (setCol df c v) c2 = getCol df c2 := by
  rw [setCol]
  split_ifs with hmem
  · exact getCol_map_update_ne df c v c2 h
  · exact getCol_append_single_ne df c v c2 h

theorem colNames_dropCol (df : DataFrameRow) (c : String) :
    colNames (dropCol df c) = (colNames df).filter (fun x => x ≠ c) := by
  induction df with
  | nil => rfl
  | cons p rest ih =>
    obtain ⟨c0, v0⟩ := p
    cases hb : decide (c0 ≠ c) with
    | false =>
      have h0 : c0 = c := by simpa using of_decide_eq_false hb
      have hhead : dropCol ((c0, v0) :: rest) c = dropCol rest c := by
        simp [dropCol, List.filter_cons, h0]
      rw [hhead, ih, colNames_cons]
      rw [List.filter_cons]
      simp [hb]
    | true =>
      have h0 : c0 ≠ c := of_decide_eq_true hb
      have hhead : dropCol ((c0, v0) :: rest) c = (c0, v0) :: dropCol rest c := by
        simp [dropCol, List.filter_cons, h0]
      rw [hhead, colNames_cons, ih, colNames_cons]
      rw [List.filter_cons]
      simp [hb]

theorem not_mem_colNames_dropCol (df : DataFrameRow) (c : String) :
    c ∉ colNames (dropCol df c) := by
  rw [colNames_dropCol]
  intro h
  have := List.of_mem_filter h
  simp at this

theorem dropCol_eq_self (df : DataFrameRow) (c : String)
    (h : c ∉ colNames df) : dropCol df c = df := by
  rw [dropCol, List.filter_eq_self]
  intro p hp
  simp only [ne_eq, decide_not, Bool.not_eq_eq_eq_not, Bool.not_true,
    decide_eq_false_iff_not]
  intro hc
  exact h (hc ▸ List.mem_map_of_mem Prod.fst hp)

theorem dropCol_append_single (df : DataFrameRow) (c : String) (v : Value)
    (h : c ∉ colNames df) : dropCol (df ++ [(c, v)]) c = df := by
  rw [dropCol, List.filter_append]
  have h1 : df.filter (fun p => p.1 ≠ c) = df := dropCol_eq_self df c h
  have h2 : List.filter (fun p : String × Value => p.1 ≠ c) [(c, v)] = [] := by
    simp
  rw [h1, h2, List.append_nil]

theorem getCol_dropCol_ne (df : DataFrameRow) (c : String) (c2 : String)
    (h : c2 ≠ c) : getCol (dropCol df c) c2 = getCol df c2 := by
  induction df with
  | nil => rfl
  | cons p rest ih =>
    obtain ⟨c0, v0⟩ := p
    cases hb : decide (c0 ≠ c) with
    | false =>
      have h0 : c0 = c := by simpa using of_decide_eq_false hb
      have hne : ¬ c0 = c2 := fun hc => h (hc ▸ h0 : c2 = c)
      have hhead : dropCol ((c0, v0) :: rest) c = dropCol rest c := by
        simp [dropCol, List.filter_cons, h0]
      rw [hhead, ih]
      show _ = (if c0 = c2 then some v0 else getCol rest c2)
      rw [if_neg hne]
    | true =>
      have h0 : c0 ≠ c := of_decide_eq_true hb
      have hhead : dropCol ((c0, v0) :: rest) c = (c0, v0) :: dropCol rest c := by
        simp [dropCol, List.filter_cons, h0]
      rw [hhead]
      show (if c0 = c2 then some v0 else getCol (dropCol rest c) c2)
          = (if c0 = c2 then some v0 else getCol rest c2)
      rw [ih]

theorem getCol_setCols_not_mem (updates : List (String × Value))
    (df : DataFrameRow) (c : String) (h : c ∉ updates.map Prod.fst) :
    getCol (setCols df updates) c = getCol df c := by
  induction updates generalizing df with
  | nil => rfl
  | cons u rest ih =>
    obtain ⟨c0, v0⟩ := u
    have h0 : c ≠ c0 := by
      intro hc
      exact h (by simp [hc])
    have hr : c ∉ rest.map Prod.fst := fun hc => h (by simp [hc])
    show getCol (setCols (setCol df c0 v0) rest) c = getCol df c
    rw [ih (setCol df c0 v0) hr, getCol_setCol_ne df c0 v0 c h0]

theorem colNames_setCols (updates : List (String × Value))
    (df : DataFrameRow) (h : ∀ u ∈ updates, u.1 ∈ colNames df) :
    colNames (setCols df updates) = colNames df := by
  induction updates generalizing df with
  | nil => rfl
  | cons u rest ih =>
    obtain ⟨c0, v0⟩ := u
    have h0 : c0 ∈ colNames df := h (c0, v0) (by simp)
    show colNames (setCols (setCol df c0 v0) rest) = colNames df
    rw [ih (setCol df c0 v0) (fun u hu => by
      rw [colNames_setCol_of_mem df c0 v0 h0]
      exact h u (List.mem_cons_of_mem _ hu))]
    exact colNames_setCol_of_mem df c0 v0 h0

theorem getCol_setCols_mem_nodup (updates : List (String × Value))
    (df : DataFrameRow) (c : String) (v : Value)
    (hnodup : (updates.map Prod.fst).Nodup) (hmem : (c, v) ∈ updates) :
    getCol (setCols df updates) c = some v := by
  induction updates generalizing df with
  | nil => cases hmem
  | cons u rest ih =>
    obtain ⟨c0, v0⟩ := u
    rcases List.mem_cons.mp hmem with h1 | h1
    · obtain ⟨hc, hv⟩ := Prod.mk.injEq .. ▸ h1
      subst hc; subst hv
      have hnot : c ∉ rest.map Prod.fst := by
        simp only [List.map_cons, List.nodup_cons] at hnodup
        exact hnodup.1
      show getCol (setCols (setCol df c v) rest) c = some v
      rw [getCol_setCols_not_mem rest _ c hnot]
      exact getCol_setCol_self df c v
    · have hr : (rest.map Prod.fst).Nodup := by
        simp only [List.map_cons, List.nodup_cons] at hnodup
        exact hnodup.2
      exact ih _ hr h1

theorem readCols_ok_length (df : DataFrameRow) (cs : List String)
    (vs : List Value) (h : readCols df cs = .ok vs) : vs.length = cs.length := by
  induction cs generalizing vs with
  | nil =>
    simp only [readCols] at h
    cases h
    rfl
  | cons c rest ih =>
    simp only [readCols] at h
    cases hg : getCol df c with
    | none => rw [hg] at h; cases h
    | some v =>
      rw [hg] at h
      cases hr : readCols df rest with
      | error e => rw [hr] at h; cases h
      | ok vs2 =>
        rw [hr] at h
        cases h
        simp [ih vs2 hr]

theorem readCols_ok_forall_mem (df : DataFrameRow) (cs : List String)
    (vs : List Value) (h : readCols df cs = .ok vs) :
    ∀ c ∈ cs, c ∈ colNames df := by
  induction cs generalizing vs with
  | nil => intro c hc; cases hc
  | cons c0 rest ih =>
    intro c hc
    simp only [readCols] at h
    cases hg : getCol df c0 with
    | none => rw [hg] at h; cases h
    | some v =>
      rw [hg] at h
      cases hr : readCols df rest with
      | error e => rw [hr] at h; cases h
      | ok vs2 =>
        rcases List.mem_cons.mp hc with h1 | h1
        · exact h1 ▸ mem_colNames_of_getCol_eq_some df c0 v hg
        · exact ih vs2 hr c h1

/- ### The loop body as an optional single-column write -/

set_option maxHeartbeats 2000000 in
theorem apply_entry_of_entryWrite_none (df : DataFrameRow) (e : String × Value)
    (h : entryWrite e = none) : apply_entry df e = df := by
  obtain ⟨key, value⟩ := e
  cases value with
  | str s =>
    simp only [entryWrite] at h
    split_ifs at h <;>
      first
        | exact (by assumption : False).elim
        | exact Option.noConfusion h
        | simp [apply_entry, *]
  | num q =>
    simp only [entryWrite] at h
    split_ifs at h <;>
      first
        | exact (by assumption : False).elim
        | exact Option.noConfusion h
        | simp [apply_entry, *]

set_option maxHeartbeats 2000000 in
theorem apply_entry_of_entryWrite_some (df : DataFrameRow) (e : String × Value)
    (c : String) (w : Value) (h : entryWrite e = some (c, w)) :
    apply_entry df e = setCol df c w := by
  obtain ⟨key, value⟩ := e
  cases value with
  | str s =>
    simp only [entryWrite] at h
    split_ifs at h <;>
      first
        | exact (by assumption : False).elim
        | exact Option.noConfusion h
        | (injection h with hp
           injection hp with hc hw
           subst hc; subst hw
           simp [apply_entry, *])
  | num q =>
    simp only [entryWrite] at h
    split_ifs at h <;>
      first
        | exact (by assumption : False).elim
        | exact Option.noConfusion h
        | (injection h with hp
           injection hp with hc hw
           subst hc; subst hw
           simp [apply_entry, *])

set_option maxHeartbeats 2000000 in
theorem entryWrite_mem_pairs (k : String) (v : Value) (c : String) (w : Value)
    (h : entryWrite (k, v) = some (c, w)) : (k, c) ∈ writable_pairs := by
  cases v with
  | str s =>
    simp only [entryWrite] at h
    split_ifs at h <;>
        (injection h with hp
         injection hp with hc hw
         subst hc
         subst_vars) <;>
      (try casesm* _ ∨ _) <;> (try subst_vars) <;> decide
  | num q =>
    simp only [entryWrite] at h
    split_ifs at h <;>
        (injection h with hp
         injection hp with hc hw
         subst hc
         subst_vars) <;>
      decide

theorem writable_pairs_functional :
    ∀ p1 ∈ writable_pairs, ∀ p2 ∈ writable_pairs,
      p1.2 = p2.2 → p1.1 = p2.1 := by decide

theorem writable_pairs_col_mem_expected :
    ∀ p ∈ writable_pairs, p.2 ∈ expected_columns := by decide

theorem colNames_df_init : colNames df_init = expected_columns := by
  rw [df_init, colNames, List.map_map]
  exact List.map_id expected_columns

theorem colNames_apply_entry (df : DataFrameRow) (e : String × Value)
    (h : colNames df = expected_columns) :
    colNames (apply_entry df e) = expected_columns := by
  obtain ⟨k, v⟩ := e
  cases hw : entryWrite (k, v) with
  | none => rw [apply_entry_of_entryWrite_none df (k, v) hw]; exact h
  | some cv =>
    obtain ⟨c, w⟩ := cv
    rw [apply_entry_of_entryWrite_some df (k, v) c w hw]
    have hc : c ∈ expected_columns :=
      writable_pairs_col_mem_expected (k, c) (entryWrite_mem_pairs k v c w hw)
    rw [colNames_setCol_of_mem df c w (h.symm ▸ hc)]
    exact h

theorem colNames_foldl_apply_entry (d : RawInput) :
    ∀ df, colNames df = expected_columns →
      colNames (d.foldl apply_entry df) = expected_columns := by
  induction d with
  | nil => intro df h; exact h
  | cons e rest ih =>
    intro df h
    exact ih (apply_entry df e) (colNames_apply_entry df e h)

theorem colNames_encode_features (d : RawInput) :
    colNames (encode_features d) = expected_columns :=
  colNames_foldl_apply_entry d df_init colNames_df_init

theorem getCol_foldl_no_write (d : RawInput) (c : String) :
    (∀ e ∈ d, ∀ cv, entryWrite e = some cv → cv.1 ≠ c) →
    ∀ df, getCol (d.foldl apply_entry df) c = getCol df c := by
  induction d with
  | nil => intro _ df; rfl
  | cons e rest ih =>
    intro hd df
    show getCol (rest.foldl apply_entry (apply_entry df e)) c = getCol df c
    rw [ih (fun e2 he2 => hd e2 (List.mem_cons_of_mem e he2)) (apply_entry df e)]
    cases hw : entryWrite e with
    | none => rw [apply_entry_of_entryWrite_none df e hw]
    | some cv =>
      obtain ⟨c0, w⟩ := cv
      rw [apply_entry_of_entryWrite_some df e c0 w hw]
      exact getCol_setCol_ne df c0 w c
        (Ne.symm (hd e (List.mem_cons_self e rest) (c0, w) hw))

theorem getCol_foldl_last_write (d1 d2 : RawInput) (e : String × Value)
    (c : String) (v : Value) (he : entryWrite e = some (c, v))
    (hd2 : ∀ e2 ∈ d2, ∀ cv, entryWrite e2 = some cv → cv.1 ≠ c)
    (df : DataFrameRow) :
    getCol ((d1 ++ e :: d2).foldl apply_entry df) c = some v := by
  rw [List.foldl_append, List.foldl_cons,
      getCol_foldl_no_write d2 c hd2 _,
      apply_entry_of_entryWrite_some _ e c v he]
  exact getCol_setCol_self _ c v

/- ### Lemmas about the scaling step -/

theorem handle_scaling_str (sy sr : ScalerBundle) (s : String)
    (df : DataFrameRow) :
    handle_scaling sy sr (.str s) df = .error .typeError := rfl

theorem handle_scaling_ok_colNames (sy sr : ScalerBundle) (a : ℚ)
    (df df' : DataFrameRow) (hinc : "income_level" ∉ colNames df)
    (h : handle_scaling sy sr (.num a) df = .ok df') :
    colNames df' = colNames df := by
  simp only [handle_scaling] at h
  cases hr : readCols (setCol df "income_level" (.num 0))
      (select_scaler sy sr a).cols_to_scale with
  | error e => rw [hr] at h; cases h
  | ok vals =>
    rw [hr] at h
    dsimp only at h
    by_cases hlen : ((select_scaler sy sr a).scaler.transform vals).length =
        (select_scaler sy sr a).cols_to_scale.length
    · rw [if_pos hlen] at h
      injection h with h2
      subst h2
      have h1 : colNames (setCol df "income_level" (.num 0)) =
          colNames df ++ ["income_level"] :=
        colNames_setCol_of_not_mem df _ _ hinc
      have hmem : ∀ u ∈ (select_scaler sy sr a).cols_to_scale.zip
          ((select_scaler sy sr a).scaler.transform vals),
          u.1 ∈ colNames (setCol df "income_level" (.num 0)) := by
        intro u hu
        obtain ⟨hu1, _⟩ := List.mem_zip hu
        exact readCols_ok_forall_mem _ _ _ hr u.1 hu1
      rw [colNames_dropCol, colNames_setCols _ _ hmem, h1, List.filter_append]
      have hkeep : (colNames df).filter (fun x => x ≠ "income_level") =
          colNames df := by
        rw [List.filter_eq_self]
        intro x hx
        have hxne : x ≠ "income_level" := fun hxx => hinc (hxx ▸ hx)
        simp [hxne]
      rw [hkeep]
      simp
    · rw [if_neg hlen] at h; cases h

theorem handle_scaling_ok_getCol_not_scaled (sy sr : ScalerBundle) (a : ℚ)
    (df df' : DataFrameRow) (c : String)
    (hinc : "income_level" ∉ colNames df)
    (h : handle_scaling sy sr (.num a) df = .ok df')
    (hc : c ∉ (select_scaler sy sr a).cols_to_scale) :
    getCol df' c = getCol df c := by
  simp only [handle_scaling] at h
  cases hr : readCols (setCol df "income_level" (.num 0))
      (select_scaler sy sr a).cols_to_scale with
  | error e => rw [hr] at h; cases h
  | ok vals =>
    rw [hr] at h
    dsimp only at h
    by_cases hlen : ((select_scaler sy sr a).scaler.transform vals).length =
        (select_scaler sy sr a).cols_to_scale.length
    · rw [if_pos hlen] at h
      injection h with h2
      subst h2
      by_cases hceq : c = "income_level"
      · subst hceq
        rw [(getCol_eq_none_iff _ "income_level").mpr
              (not_mem_colNames_dropCol _ "income_level"),
            (getCol_eq_none_iff df "income_level").mpr hinc]
      · rw [getCol_dropCol_ne _ _ _ hceq]
        have hnotu : c ∉ ((select_scaler sy sr a).cols_to_scale.zip
            ((select_scaler sy sr a).scaler.transform vals)).map Prod.fst := by
          intro hcm
          obtain ⟨u, hu, hu2⟩ := List.mem_map.mp hcm
          obtain ⟨hu1, _⟩ := List.mem_zip hu
          exact hc (hu2 ▸ hu1)
        rw [getCol_setCols_not_mem _ _ _ hnotu,
            getCol_setCol_ne df _ _ _ hceq]
    · rw [if_neg hlen] at h; cases h

theorem handle_scaling_ok_scaled_values (sy sr : ScalerBundle) (a : ℚ)
    (df df' : DataFrameRow) (vals : List Value)
    (hnodup : (select_scaler sy sr a).cols_to_scale.Nodup)
    (h : handle_scaling sy sr (.num a) df = .ok df')
    (hr : readCols (setCol df "income_level" (.num 0))
      (select_scaler sy sr a).cols_to_scale = .ok vals)
    (i : ℕ) (hi : i < (select_scaler sy sr a).cols_to_scale.length)
    (hne : (select_scaler sy sr a).cols_to_scale.get ⟨i, hi⟩ ≠ "income_level") :
    getCol df' ((select_scaler sy sr a).cols_to_scale.get ⟨i, hi⟩) =
      ((select_scaler sy sr a).scaler.transform vals).get? i := by
  simp only [handle_scaling] at h
  rw [hr] at h
  dsimp only at h
  by_cases hlen : ((select_scaler sy sr a).scaler.transform vals).length =
      (select_scaler sy sr a).cols_to_scale.length
  · rw [if_pos hlen] at h
    injection h with h2
    subst h2
    have hi2 : i < ((select_scaler sy sr a).scaler.transform vals).length := by
      rw [hlen]; exact hi
    rw [getCol_dropCol_ne _ _ _ hne]
    have hz : i < ((select_scaler sy sr a).cols_to_scale.zip
        ((select_scaler sy sr a).scaler.transform vals)).length := by
      rw [List.length_zip]; omega
    have hmemzip : ((select_scaler sy sr a).cols_to_scale.get ⟨i, hi⟩,
        ((select_scaler sy sr a).scaler.transform vals).get ⟨i, hi2⟩) ∈
        (select_scaler sy sr a).cols_to_scale.zip
          ((select_scaler sy sr a).scaler.transform vals) := by
      have hmem := List.getElem_mem hz
      rw [List.getElem_zip] at hmem
      simpa [List.get_eq_getElem] using hmem
    have hnodup2 : (((select_scaler sy sr a).cols_to_scale.zip
        ((select_scaler sy sr a).scaler.transform vals)).map Prod.fst).Nodup := by
      rw [List.map_fst_zip _ _ (le_of_eq hlen.symm)]
      exact hnodup
    rw [getCol_setCols_mem_nodup _ _ _ _ hnodup2 hmemzip]
    rw [List.get?_eq_get hi2]
  · rw [if_neg hlen] at h; cases h

theorem preprocess_input_ok_inv (sy sr : ScalerBundle) (d : RawInput)
    (df' : DataFrameRow) (h : preprocess_input sy sr d = .ok df') :
    ∃ mh a, getCol d "Medical History" = some (.str mh) ∧
      getCol d "Age" = some (.num a) ∧
      handle_scaling sy sr (.num a)
        (setCol (encode_features d) "normalized_risk_score"
          (.num (calculate_normalized_risk mh))) = .ok df' := by
  simp only [preprocess_input] at h
  cases hmh : getCol d "Medical History" with
  | none => rw [hmh] at h; cases h
  | some v =>
    cases v with
    | num q => rw [hmh] at h; cases h
    | str mh =>
      rw [hmh] at h
      dsimp only at h
      cases hage : getCol d "Age" with
      | none => rw [hage] at h; cases h
      | some av =>
        rw [hage] at h
        dsimp only at h
        cases av with
        | str s2 =>
          rw [handle_scaling_str] at h
          cases h
        | num a => exact ⟨mh, a, rfl, rfl, h⟩

/-- C2: for every raw input on which `preprocess_input` succeeds, the
frame built by the mapping loop has exactly the 18 expected columns in
the contract order, and the frame returned after the scaling step
(which temporarily adds and then drops the placeholder column) has
exactly the same 18 columns in the same order. -/
theorem c2_feature_row_schema (sy sr : ScalerBundle) (d : RawInput)
    (df' : DataFrameRow) (h : preprocess_input sy sr d = .ok df') :
    colNames (encode_features d) = expected_columns ∧
    expected_columns.length = 18 ∧
    colNames df' = expected_columns := by
  obtain ⟨mh, a, hmh, hage, hs⟩ := preprocess_input_ok_inv sy sr d df' h
  have henc := colNames_encode_features d
  refine ⟨henc, by decide, ?_⟩
  have hdf2 : colNames (setCol (encode_features d) "normalized_risk_score"
      (.num (calculate_normalized_risk mh))) = expected_columns := by
    rw [colNames_setCol_of_mem]
    · exact henc
    · rw [henc]; decide
  have hinc : "income_level" ∉ colNames (setCol (encode_features d)
      "normalized_risk_score" (.num (calculate_normalized_risk mh))) := by
    rw [hdf2]; decide
  rw [handle_scaling_ok_colNames sy sr a _ df' hinc hs, hdf2]

/-- Witness instantiating `c2_feature_row_schema` on a concrete input
and concrete scaler bundles. -/
theorem c2_witness :
    (preprocess_input witnessScaler witnessScalerB witnessInput).map colNames
      = Except.ok expected_columns := by
  cases h : preprocess_input witnessScaler witnessScalerB witnessInput with
  | error e =>
    have hOk : (preprocess_input witnessScaler witnessScalerB
        witnessInput).isOk = true := by decide
    rw [h] at hOk
    exact Bool.noConfusion hOk
  | ok df =>
    have hc := (c2_feature_row_schema witnessScaler witnessScalerB
      witnessInput df h).2.2
    simp [Except.map, hc]

/-- C8: when `handle_scaling` succeeds, it returns a frame with the
same columns in the same order, every column outside the selected
bundle's declared subset unchanged in value, the placeholder column
present and equal to 0 during the transform, absent from the returned
frame, and every declared column (other than the placeholder) carrying
the corresponding component of the transform output. -/
theorem c8_scaling_frame (sy sr : ScalerBundle) (a : ℚ)
    (df df' : DataFrameRow) (vals : List Value)
    (hinc : "income_level" ∉ colNames df)
    (hnodup : (select_scaler sy sr a).cols_to_scale.Nodup)
    (h : handle_scaling sy sr (.num a) df = .ok df')
    (hr : readCols (setCol df "income_level" (.num 0))
        (select_scaler sy sr a).cols_to_scale = .ok vals) :
    colNames df' = colNames df ∧
    (∀ c, c ∉ (select_scaler sy sr a).cols_to_scale →
      getCol df' c = getCol df c) ∧
    getCol (setCol df "income_level" (.num 0)) "income_level"
        = some (.num 0) ∧
    "income_level" ∉ colNames df' ∧
    (∀ i (hi : i < (select_scaler sy sr a).cols_to_scale.length),
      (select_scaler sy sr a).cols_to_scale.get ⟨i, hi⟩ ≠ "income_level" →
      getCol df' ((select_scaler sy sr a).cols_to_scale.get ⟨i, hi⟩) =
        ((select_scaler sy sr a).scaler.transform vals).get? i) := by
  refine ⟨handle_scaling_ok_colNames sy sr a df df' hinc h,
    fun c hc => handle_scaling_ok_getCol_not_scaled sy sr a df df' c hinc h hc,
    getCol_setCol_self df "income_level" (.num 0), ?_,
    fun i hi hne =>
      handle_scaling_ok_scaled_values sy sr a df df' vals hnodup h hr i hi hne⟩
  rw [handle_scaling_ok_colNames sy sr a df df' hinc h]
  exact hinc

/-- Witness instantiating `c8_scaling_frame` on the all-zero frame with
a concrete scaler bundle whose subset includes the placeholder. -/
theorem c8_witness :
    ("income_level" ∉ colNames df_init) ∧
    (select_scaler witnessScaler witnessScalerB 25).cols_to_scale.Nodup ∧
    getCol (setCol df_init "income_level" (Value.num 0)) "income_level"
        = some (Value.num 0) ∧
    "income_level" ∉ colNames df_init := by
  have h := c8_scaling_frame witnessScaler witnessScalerB 25 df_init df_init
    [Value.num 0, Value.num 0, Value.num 0] (by decide) (by decide)
    (by rfl) (by rfl)
  exact ⟨by decide, by decide, h.2.2.1, h.2.2.2.1⟩

/-- C3: the scaler dispatch in `handle_scaling` and the model dispatch
in `predict` use the identical threshold `age <= 25`: at age 25 both
select the young artifact, at age 26 (and every age above 25) both
select the rest artifact. -/
theorem c3_age_threshold (sy sr : ScalerBundle) (my mr : RegressionModel)
    (age : ℚ) :
    select_scaler sy sr 25 = sy ∧ select_model my mr 25 = my ∧
    select_scaler sy sr 26 = sr ∧ select_model my mr 26 = mr ∧
    (age ≤ 25 → select_scaler sy sr age = sy ∧ select_model my mr age = my) ∧
    (25 < age → select_scaler sy sr age = sr ∧ select_model my mr age = mr) := by
  refine ⟨?_, ?_, ?_, ?_, fun h => ⟨?_, ?_⟩, fun h => ⟨?_, ?_⟩⟩
  · exact if_pos (by norm_num)
  · exact if_pos (by norm_num)
  · exact if_neg (by norm_num)
  · exact if_neg (by norm_num)
  · exact if_pos h
  · exact if_pos h
  · exact if_neg (not_le.mpr h)
  · exact if_neg (not_le.mpr h)

/-- Witness instantiating `c3_age_threshold` with concrete ages and
distinguishable artifacts. -/
theorem c3_witness :
    ((25 : ℚ) < 30) ∧
    select_scaler witnessScaler witnessScalerB 30 = witnessScalerB ∧
    select_model witnessModel witnessModelB 30 = witnessModelB ∧
    select_scaler witnessScaler witnessScalerB 25 = witnessScaler ∧
    select_model witnessModel witnessModelB 25 = witnessModel := by
  have h := c3_age_threshold witnessScaler witnessScalerB witnessModel
    witnessModelB 30
  have h30 := h.2.2.2.2.2 (by norm_num)
  exact ⟨by norm_num, h30.1, h30.2, h.1, h.2.1⟩

/-- C5: a raw input missing the required key "Medical History" (or with
it present as a string but missing "Age") makes `preprocess_input`, and
hence `predict`, fail with a `KeyError` naming that key; no default is
substituted. -/
theorem c5_missing_required_keys (my mr : RegressionModel)
    (sy sr : ScalerBundle) (d : RawInput) :
    (getCol d "Medical History" = none →
      preprocess_input sy sr d = .error (.keyError "Medical History") ∧
      predict my mr sy sr d = .error (.keyError "Medical History")) ∧
    (∀ s, getCol d "Medical History" = some (.str s) →
      getCol d "Age" = none →
      preprocess_input sy sr d = .error (.keyError "Age") ∧
      predict my mr sy sr d = .error (.keyError "Age")) := by
  constructor
  · intro hmh
    have hpre : preprocess_input sy sr d = .error (.keyError "Medical History") := by
      simp only [preprocess_input, hmh]
    refine ⟨hpre, ?_⟩
    simp only [predict, hpre]
  · intro s hmh hage
    have hpre : preprocess_input sy sr d = .error (.keyError "Age") := by
      simp only [preprocess_input, hmh, hage]
    refine ⟨hpre, ?_⟩
    simp only [predict, hpre]

/-- Witness instantiating `c5_missing_required_keys` on two concrete
inputs: one lacking "Medical History", one lacking "Age". -/
theorem c5_witness :
    (preprocess_input witnessScaler witnessScalerB [("Age", Value.num 30)]
        = .error (.keyError "Medical History") ∧
     predict witnessModel witnessModelB witnessScaler witnessScalerB
        [("Age", Value.num 30)] = .error (.keyError "Medical History")) ∧
    (preprocess_input witnessScaler witnessScalerB
        [("Medical History", Value.str "none")] = .error (.keyError "Age") ∧
     predict witnessModel witnessModelB witnessScaler witnessScalerB
        [("Medical History", Value.str "none")]
        = .error (.keyError "Age")) := by
  constructor
  · exact (c5_missing_required_keys witnessModel witnessModelB witnessScaler
      witnessScalerB [("Age", Value.num 30)]).1 (by rfl)
  · exact (c5_missing_required_keys witnessModel witnessModelB witnessScaler
      witnessScalerB [("Medical History", Value.str "none")]).2 "none"
      (by rfl) (by rfl)

theorem entryWrite_region_str (s : String) :
    entryWrite ("Region", .str s) =
      if s = "Northwest" ∨ s = "Southeast" ∨ s = "Southwest" then
        some ("region_" ++ s, Value.num 1)
      else none := rfl

theorem entryWrite_region_num (q : ℚ) :
    entryWrite ("Region", .num q) = none := rfl

theorem entryWrite_insurance (v : Value) :
    entryWrite ("Insurance Plan", v) =
      some ("insurance_plan", .num (insurance_plan_encoding_get v)) := by
  cases v <;> rfl

set_option maxHeartbeats 2000000 in
theorem entryWrite_onehot (col key val : String) (k : String) (v : Value)
    (w : Value) (htrig : (col, key, val) ∈ onehot_triggers)
    (hw : entryWrite (k, v) = some (col, w)) :
    k = key ∧ v = Value.str val := by
  cases v with
  | str s =>
    simp only [entryWrite] at hw
    split_ifs at hw with hGen hMale hReg hRegS hMar hUnm hBmi hBmiS hSmo
      hSmoS hEmp hEmpS hIns hAge hDep hInc hGenet
    · injection hw with hp
      injection hp with hc hwv
      subst hc
      simp [onehot_triggers] at htrig
      obtain ⟨hk2, hv2⟩ := htrig
      exact ⟨hGen.trans hk2.symm, by rw [hv2]; exact hMale⟩
    · injection hw with hp
      injection hp with hc hwv
      subst hc
      rcases hRegS with hs | hs | hs
      · subst hs
        rw [show ("region_" ++ "Northwest" : String) = "region_Northwest"
          from rfl] at htrig
        simp [onehot_triggers] at htrig
        obtain ⟨hk2, hv2⟩ := htrig
        exact ⟨hReg.trans hk2.symm, by rw [hv2]⟩
      · subst hs
        rw [show ("region_" ++ "Southeast" : String) = "region_Southeast"
          from rfl] at htrig
        simp [onehot_triggers] at htrig
        obtain ⟨hk2, hv2⟩ := htrig
        exact ⟨hReg.trans hk2.symm, by rw [hv2]⟩
      · subst hs
        rw [show ("region_" ++ "Southwest" : String) = "region_Southwest"
          from rfl] at htrig
        simp [onehot_triggers] at htrig
        obtain ⟨hk2, hv2⟩ := htrig
        exact ⟨hReg.trans hk2.symm, by rw [hv2]⟩
    · injection hw with hp
      injection hp with hc hwv
      subst hc
      simp [onehot_triggers] at htrig
      obtain ⟨hk2, hv2⟩ := htrig
      exact ⟨hMar.trans hk2.symm, by rw [hv2]; exact hUnm⟩
    · injection hw with hp
      injection hp with hc hwv
      subst hc
      rcases hBmiS with hs | hs | hs
      · subst hs
        rw [show ("bmi_category_" ++ "Obesity" : String) =
          "bmi_category_Obesity" from rfl] at htrig
        simp [onehot_triggers] at htrig
        obtain ⟨hk2, hv2⟩ := htrig
        exact ⟨hBmi.trans hk2.symm, by rw [hv2]⟩
      · subst hs
        rw [show ("bmi_category_" ++ "Overweight" : String) =
          "bmi_category_Overweight" from rfl] at htrig
        simp [onehot_triggers] at htrig
        obtain ⟨hk2, hv2⟩ := htrig
        exact ⟨hBmi.trans hk2.symm, by rw [hv2]⟩
      · subst hs
        rw [show ("bmi_category_" ++ "Underweight" : String) =
          "bmi_category_Underweight" from rfl] at htrig
        simp [onehot_triggers] at htrig
        obtain ⟨hk2, hv2⟩ := htrig
        exact ⟨hBmi.trans hk2.symm, by rw [hv2]⟩
    · injection hw with hp
      injection hp with hc hwv
      subst hc
      rcases hSmoS with hs | hs
      · subst hs
        rw [show ("smoking_status_" ++ "Occasional" : String) =
          "smoking_status_Occasional" from rfl] at htrig
        simp [onehot_triggers] at htrig
        obtain ⟨hk2, hv2⟩ := htrig
        exact ⟨hSmo.trans hk2.symm, by rw [hv2]⟩
      · subst hs
        rw [show ("smoking_status_" ++ "Regular" : String) =
          "smoking_status_Regular" from rfl] at htrig
        simp [onehot_triggers] at htrig
        obtain ⟨hk2, hv2⟩ := htrig
        exact ⟨hSmo.trans hk2.symm, by rw [hv2]⟩
    · injection hw with hp
      injection hp with hc hwv
      subst hc
      rcases hEmpS with hs | hs
      · subst hs
        rw [show ("employment_status_" ++ "Salaried" : String) =
          "employment_status_Salaried" from rfl] at htrig
        simp [onehot_triggers] at htrig
        obtain ⟨hk2, hv2⟩ := htrig
        exact ⟨hEmp.trans hk2.symm, by rw [hv2]⟩
      · subst hs
        rw [show ("employment_status_" ++ "Self-Employed" : String) =
          "employment_status_Self-Employed" from rfl] at htrig
        simp [onehot_triggers] at htrig
        obtain ⟨hk2, hv2⟩ := htrig
        exact ⟨hEmp.trans hk2.symm, by rw [hv2]⟩
    · injection hw with hp
      injection hp with hc hwv
      subst hc
      simp [onehot_triggers] at htrig
    · injection hw with hp
      injection hp with hc hwv
      subst hc
      simp [onehot_triggers] at htrig
    · injection hw with hp
      injection hp with hc hwv
      subst hc
      simp [onehot_triggers] at htrig
    · injection hw with hp
      injection hp with hc hwv
      subst hc
      simp [onehot_triggers] at htrig
    · injection hw with hp
      injection hp with hc hwv
      subst hc
      simp [onehot_triggers] at htrig
  | num q =>
    simp only [entryWrite] at hw
    split_ifs at hw <;>
      first
        | exact (by assumption : False).elim
        | (injection hw with hp
           injection hp with hc hwv
           subst hc
           simp [onehot_triggers] at htrig)

/-- C6: the encoder never raises (it is a total function) and
unrecognized categorical values are silently ignored: every one-hot
feature column stays at its baseline 0 whenever its triggering
key/value pair is absent from the raw input — which covers an
unrecognized value under any of the six categorical keys (e.g.
Region = "Atlantis" or BMI Category = "Chunky") — and an entry with an
unrecognized key leaves the frame entirely unchanged. -/
theorem c6_unrecognized_values (d : RawInput) :
    (∀ col key val, (col, key, val) ∈ onehot_triggers →
      (key, Value.str val) ∉ d →
      getCol (encode_features d) col = some (.num 0)) ∧
    (∀ df k v, k ∉ ["Gender", "Region", "Marital Status", "BMI Category",
        "Smoking Status", "Employment Status", "Insurance Plan", "Age",
        "Number of Dependants", "Income in Lakhs", "Genetical Risk"] →
      apply_entry df (k, v) = df) := by
  constructor
  · intro col key val htrig hnot
    show getCol (d.foldl apply_entry df_init) col = _
    have hno : ∀ e ∈ d, ∀ cv, entryWrite e = some cv → cv.1 ≠ col := by
      intro e he cv hw
      obtain ⟨k0, v0⟩ := e
      obtain ⟨c0, w0⟩ := cv
      intro hceq
      have hceq2 : c0 = col := hceq
      subst hceq2
      obtain ⟨hk, hv⟩ := entryWrite_onehot c0 key val k0 v0 w0 htrig hw
      subst hk
      subst hv
      exact hnot he
    rw [getCol_foldl_no_write d col hno df_init]
    have hd0 : ∀ c ∈ onehot_triggers.map (fun t => t.1),
        getCol df_init c = some (Value.num 0) := by decide
    exact hd0 col (List.mem_map_of_mem _ htrig)
  · intro df k v hk
    simp only [List.mem_cons, not_or, List.not_mem_nil, not_false_iff,
      and_true] at hk
    obtain ⟨h1, h2, h3, h4, h5, h6, h7, h8, h9, h10, h11⟩ := hk
    cases v <;> simp [apply_entry, h1, h2, h3, h4, h5, h6, h7, h8, h9, h10, h11]

/-- Witness instantiating `c6_unrecognized_values` on an input with
Region = "Atlantis" and BMI Category = "Chunky": the region and BMI
one-hot columns all stay 0. -/
theorem c6_witness :
    getCol (encode_features [("Region", Value.str "Atlantis"),
        ("BMI Category", Value.str "Chunky")]) "region_Northwest"
      = some (Value.num 0) ∧
    getCol (encode_features [("Region", Value.str "Atlantis"),
        ("BMI Category", Value.str "Chunky")]) "region_Southeast"
      = some (Value.num 0) ∧
    getCol (encode_features [("Region", Value.str "Atlantis"),
        ("BMI Category", Value.str "Chunky")]) "region_Southwest"
      = some (Value.num 0) ∧
    getCol (encode_features [("Region", Value.str "Atlantis"),
        ("BMI Category", Value.str "Chunky")]) "bmi_category_Obesity"
      = some (Value.num 0) ∧
    getCol (encode_features [("Region", Value.str "Atlantis"),
        ("BMI Category", Value.str "Chunky")]) "bmi_category_Overweight"
      = some (Value.num 0) ∧
    getCol (encode_features [("Region", Value.str "Atlantis"),
        ("BMI Category", Value.str "Chunky")]) "bmi_category_Underweight"
      = some (Value.num 0) := by
  have h := (c6_unrecognized_values [("Region", Value.str "Atlantis"),
    ("BMI Category", Value.str "Chunky")]).1
  exact ⟨h "region_Northwest" "Region" "Northwest" (by decide) (by decide),
    h "region_Southeast" "Region" "Southeast" (by decide) (by decide),
    h "region_Southwest" "Region" "Southwest" (by decide) (by decide),
    h "bmi_category_Obesity" "BMI Category" "Obesity" (by decide) (by decide),
    h "bmi_category_Overweight" "BMI Category" "Overweight" (by decide)
      (by decide),
    h "bmi_category_Underweight" "BMI Category" "Underweight" (by decide)
      (by decide)⟩

/-- C7: whenever the raw input contains the key "Insurance Plan", the
insurance_plan feature is its value under the fixed encoding Bronze=1,
Silver=2, Gold=3, with 1 for every other value. -/
theorem c7_insurance_plan (d : RawInput) (v : Value)
    (hnodup : (d.map Prod.fst).Nodup) (hmem : ("Insurance Plan", v) ∈ d) :
    getCol (encode_features d) "insurance_plan"
        = some (.num (insurance_plan_encoding_get v)) ∧
    insurance_plan_encoding_get (.str "Bronze") = 1 ∧
    insurance_plan_encoding_get (.str "Silver") = 2 ∧
    insurance_plan_encoding_get (.str "Gold") = 3 ∧
    (∀ w : Value, w ≠ .str "Bronze" → w ≠ .str "Silver" →
      w ≠ .str "Gold" → insurance_plan_encoding_get w = 1) := by
  refine ⟨?_, rfl, rfl, rfl, ?_⟩
  · obtain ⟨d1, d2, hd⟩ := List.append_of_mem hmem
    subst hd
    have hnotin : "Insurance Plan" ∉ d2.map Prod.fst := by
      rw [List.map_append, List.map_cons] at hnodup
      have := hnodup.of_append_right
      exact (List.nodup_cons.mp this).1
    have hno : ∀ e2 ∈ d2, ∀ cv, entryWrite e2 = some cv →
        cv.1 ≠ "insurance_plan" := by
      intro e2 he2 cv hw
      obtain ⟨k, w0⟩ := e2
      obtain ⟨c0, w⟩ := cv
      intro hceq
      rw [show ((c0, w) : String × Value).1 = c0 from rfl] at hceq
      subst hceq
      have hpair := entryWrite_mem_pairs k w0 _ w hw
      simp [writable_pairs] at hpair
      subst hpair
      exact hnotin (List.mem_map_of_mem Prod.fst he2)
    show getCol ((d1 ++ ("Insurance Plan", v) :: d2).foldl apply_entry
        df_init) "insurance_plan" = _
    exact getCol_foldl_last_write d1 d2 ("Insurance Plan", v)
      "insurance_plan" (.num (insurance_plan_encoding_get v))
      (entryWrite_insurance v) hno df_init
  · intro w h1 h2 h3
    cases w with
    | num q => rfl
    | str s =>
      rw [insurance_plan_encoding_get.eq_def]
      split
      · rename_i heq
        exact absurd (by rw [heq]) h1
      · rename_i heq
        exact absurd (by rw [heq]) h2
      · rename_i heq
        exact absurd (by rw [heq]) h3
      · rfl

/-- Witness instantiating `c7_insurance_plan` at the concrete input,
whose Insurance Plan is "Gold". -/
theorem c7_witness :
    (witnessInput.map Prod.fst).Nodup ∧
    ("Insurance Plan", Value.str "Gold") ∈ witnessInput ∧
    getCol (encode_features witnessInput) "insurance_plan"
        = some (.num (insurance_plan_encoding_get (Value.str "Gold"))) :=
  ⟨by decide, by decide,
   (c7_insurance_plan witnessInput (Value.str "Gold") (by decide)
     (by decide)).1⟩

/-- C10 (implicit): when the raw input does not contain the key
"Insurance Plan" at all, the insurance_plan feature keeps its initial
value 0 — the Bronze default 1 applies only when the key is present. -/
theorem c10_insurance_plan_absent (d : RawInput)
    (h : ∀ v, ("Insurance Plan", v) ∉ d) :
    getCol (encode_features d) "insurance_plan" = some (.num 0) := by
  show getCol (d.foldl apply_entry df_init) "insurance_plan" = _
  have hno : ∀ e ∈ d, ∀ cv, entryWrite e = some cv →
      cv.1 ≠ "insurance_plan" := by
    intro e he cv hw
    obtain ⟨k, v⟩ := e
    obtain ⟨c0, w⟩ := cv
    intro hceq
    rw [show ((c0, w) : String × Value).1 = c0 from rfl] at hceq
    subst hceq
    have hpair := entryWrite_mem_pairs k v _ w hw
    simp [writable_pairs] at hpair
    subst hpair
    exact h v he
  rw [getCol_foldl_no_write d _ hno df_init]
  rfl

/-- Witness instantiating `c10_insurance_plan_absent` on an input
without the Insurance Plan key. -/
theorem c10_witness :
    getCol (encode_features [("Age", Value.num 30),
      ("Medical History", Value.str "none")]) "insurance_plan"
        = some (.num 0) :=
  c10_insurance_plan_absent _ (by
    intro v hv
    simp only [List.mem_cons, List.not_mem_nil, or_false,
      Prod.mk.injEq] at hv
    rcases hv with ⟨h1, _⟩ | ⟨h1, _⟩ <;> exact absurd h1 (by decide))

/- ### Order-independence of the encoding loop -/

theorem expected_columns_nodup : expected_columns.Nodup := by decide

theorem df_ext (df1 : DataFrameRow) : ∀ df2 : DataFrameRow,
    colNames df1 = colNames df2 → (colNames df1).Nodup →
    (∀ c, getCol df1 c = getCol df2 c) → df1 = df2 := by
  induction df1 with
  | nil =>
    intro df2 hn _ _
    have : df2.map Prod.fst = [] := hn.symm
    exact (List.map_eq_nil.mp this).symm
  | cons p rest ih =>
    intro df2 hn hnd hg
    obtain ⟨c0, v0⟩ := p
    cases df2 with
    | nil => exact absurd hn.symm (by simp [colNames])
    | cons p2 rest2 =>
      obtain ⟨c02, v02⟩ := p2
      rw [colNames_cons, colNames_cons] at hn
      injection hn with hc htail
      have hc2 : c0 = c02 := hc
      subst hc2
      have hv : v0 = v02 := by
        have h1 := hg c0
        simpa [getCol] using h1
      subst hv
      rw [colNames_cons] at hnd
      have hnotin := (List.nodup_cons.mp hnd).1
      have hndtail := (List.nodup_cons.mp hnd).2
      have hgtail : ∀ c, getCol rest c = getCol rest2 c := by
        intro c
        by_cases hcc : c0 = c
        · subst hcc
          rw [(getCol_eq_none_iff rest c0).mpr hnotin,
              (getCol_eq_none_iff rest2 c0).mpr (htail ▸ hnotin)]
        · have h1 := hg c
          simp only [getCol, if_neg hcc] at h1
          exact h1
      rw [ih rest2 htail hndtail hgtail]

theorem setCol_comm (df : DataFrameRow) (c1 c2 : String) (v1 v2 : Value)
    (hne : c1 ≠ c2) (h1 : c1 ∈ colNames df) (h2 : c2 ∈ colNames df)
    (hnd : (colNames df).Nodup) :
    setCol (setCol df c1 v1) c2 v2 = setCol (setCol df c2 v2) c1 v1 := by
  have h1b : c1 ∈ colNames (setCol df c2 v2) := by
    rw [colNames_setCol_of_mem df c2 v2 h2]; exact h1
  have h2b : c2 ∈ colNames (setCol df c1 v1) := by
    rw [colNames_setCol_of_mem df c1 v1 h1]; exact h2
  have hnL : colNames (setCol (setCol df c1 v1) c2 v2) = colNames df := by
    rw [colNames_setCol_of_mem _ c2 v2 h2b, colNames_setCol_of_mem df c1 v1 h1]
  have hnR : colNames (setCol (setCol df c2 v2) c1 v1) = colNames df := by
    rw [colNames_setCol_of_mem _ c1 v1 h1b, colNames_setCol_of_mem df c2 v2 h2]
  apply df_ext
  · rw [hnL, hnR]
  · rw [hnL]; exact hnd
  · intro c
    by_cases hcc1 : c = c1
    · rw [hcc1, getCol_setCol_ne _ c2 v2 c1 hne, getCol_setCol_self df c1 v1,
          getCol_setCol_self _ c1 v1]
    · by_cases hcc2 : c = c2
      · rw [hcc2, getCol_setCol_self _ c2 v2,
            getCol_setCol_ne _ c1 v1 c2 (Ne.symm hne),
            getCol_setCol_self df c2 v2]
      · rw [getCol_setCol_ne _ c2 v2 c hcc2, getCol_setCol_ne df c1 v1 c hcc1,
            getCol_setCol_ne _ c1 v1 c hcc1, getCol_setCol_ne df c2 v2 c hcc2]

theorem apply_entry_comm (df : DataFrameRow) (e1 e2 : String × Value)
    (hne : e1.1 ≠ e2.1) (hdf : colNames df = expected_columns) :
    apply_entry (apply_entry df e1) e2 = apply_entry (apply_entry df e2) e1 := by
  obtain ⟨k1, v1⟩ := e1
  obtain ⟨k2, v2⟩ := e2
  cases hw1 : entryWrite (k1, v1) with
  | none =>
    rw [apply_entry_of_entryWrite_none df (k1, v1) hw1]
    cases hw2 : entryWrite (k2, v2) with
    | none =>
      rw [apply_entry_of_entryWrite_none df (k2, v2) hw2,
          apply_entry_of_entryWrite_none df (k1, v1) hw1]
    | some cv2 =>
      obtain ⟨c2, w2⟩ := cv2
      rw [apply_entry_of_entryWrite_some df (k2, v2) c2 w2 hw2,
          apply_entry_of_entryWrite_none _ (k1, v1) hw1]
  | some cv1 =>
    obtain ⟨c1, w1⟩ := cv1
    rw [apply_entry_of_entryWrite_some df (k1, v1) c1 w1 hw1]
    cases hw2 : entryWrite (k2, v2) with
    | none =>
      rw [apply_entry_of_entryWrite_none _ (k2, v2) hw2,
          apply_entry_of_entryWrite_none df (k2, v2) hw2,
          apply_entry_of_entryWrite_some df (k1, v1) c1 w1 hw1]
    | some cv2 =>
      obtain ⟨c2, w2⟩ := cv2
      rw [apply_entry_of_entryWrite_some _ (k2, v2) c2 w2 hw2,
          apply_entry_of_entryWrite_some df (k2, v2) c2 w2 hw2,
          apply_entry_of_entryWrite_some _ (k1, v1) c1 w1 hw1]
      have p1 := entryWrite_mem_pairs k1 v1 c1 w1 hw1
      have p2 := entryWrite_mem_pairs k2 v2 c2 w2 hw2
      have hc : c1 ≠ c2 := by
        intro hcc
        apply hne
        rw [hcc] at p1
        exact writable_pairs_functional (k1, c2) p1 (k2, c2) p2 rfl
      have hm1 : c1 ∈ colNames df :=
        hdf.symm ▸ writable_pairs_col_mem_expected (k1, c1) p1
      have hm2 : c2 ∈ colNames df :=
        hdf.symm ▸ writable_pairs_col_mem_expected (k2, c2) p2
      have hnd : (colNames df).Nodup := hdf ▸ expected_columns_nodup
      exact setCol_comm df c1 c2 w1 w2 hc hm1 hm2 hnd

theorem foldl_apply_entry_perm {d1 d2 : RawInput} (hperm : d1.Perm d2) :
    (d1.map Prod.fst).Nodup → ∀ df, colNames df = expected_columns →
      d1.foldl apply_entry df = d2.foldl apply_entry df := by
  induction hperm with
  | nil => intro _ df _; rfl
  | cons e hp ih =>
    intro hnodup df hdf
    simp only [List.foldl_cons]
    rw [List.map_cons] at hnodup
    exact ih hnodup.of_cons _ (colNames_apply_entry df e hdf)
  | swap x y t =>
    intro hnodup df hdf
    simp only [List.foldl_cons]
    have hxy : y.1 ≠ x.1 := by
      rw [List.map_cons, List.map_cons] at hnodup
      exact fun hc =>
        (List.nodup_cons.mp hnodup).1 (hc ▸ List.mem_cons_self x.1 _)
    rw [apply_entry_comm df y x hxy hdf]
  | trans h1 h2 ih1 ih2 =>
    intro hnodup df hdf
    rw [ih1 hnodup df hdf,
        ih2 (((h1.map Prod.fst).nodup_iff).mp hnodup) df hdf]

theorem getCol_eq_some_of_mem_nodup (d : RawInput) (k : String) (v : Value)
    (hnodup : (d.map Prod.fst).Nodup) (hmem : (k, v) ∈ d) :
    getCol d k = some v := by
  induction d with
  | nil => cases hmem
  | cons e rest ih =>
    obtain ⟨k0, v0⟩ := e
    rw [List.map_cons] at hnodup
    rcases List.mem_cons.mp hmem with h1 | h1
    · injection h1 with hk hv
      subst hk
      subst hv
      simp [getCol]
    · have hk0 : k0 ≠ k := by
        intro hc
        subst hc
        have hmm2 : Prod.fst (k0, v) ∈ rest.map Prod.fst :=
          List.mem_map_of_mem Prod.fst h1
        exact (List.nodup_cons.mp hnodup).1 hmm2
      simp only [getCol, if_neg hk0]
      exact ih (List.nodup_cons.mp hnodup).2 h1

theorem getCol_mem_of_eq_some (d : RawInput) (k : String) (v : Value)
    (h : getCol d k = some v) : (k, v) ∈ d := by
  induction d with
  | nil => cases h
  | cons e rest ih =>
    obtain ⟨k0, v0⟩ := e
    by_cases hk : k0 = k
    · subst hk
      simp only [getCol, if_pos rfl] at h
      injection h with hv
      subst hv
      exact List.mem_cons_self _ _
    · simp only [getCol, if_neg hk] at h
      exact List.mem_cons_of_mem _ (ih h)

theorem getCol_perm (d1 d2 : RawInput) (hperm : d1.Perm d2)
    (hnodup : (d1.map Prod.fst).Nodup) (k : String) :
    getCol d1 k = getCol d2 k := by
  have hnodup2 := ((hperm.map Prod.fst).nodup_iff).mp hnodup
  cases hg : getCol d1 k with
  | some v =>
    exact (getCol_eq_some_of_mem_nodup d2 k v hnodup2
      (hperm.subset (getCol_mem_of_eq_some d1 k v hg))).symm
  | none =>
    have hni : k ∉ colNames d1 := (getCol_eq_none_iff d1 k).mp hg
    symm
    rw [getCol_eq_none_iff]
    exact fun hc => hni ((hperm.map Prod.fst).mem_iff.mpr hc)

/-- C9: the encoding is deterministic in the raw-input mapping: two
representations of the same dictionary (the same key/value pairs, keys
unrepeated, in any order) encode to identical feature rows and
preprocess to identical results. -/
theorem c9_encoding_deterministic (sy sr : ScalerBundle) (d1 d2 : RawInput)
    (hperm : d1.Perm d2) (hnodup : (d1.map Prod.fst).Nodup) :
    encode_features d1 = encode_features d2 ∧
    preprocess_input sy sr d1 = preprocess_input sy sr d2 := by
  have henc : encode_features d1 = encode_features d2 :=
    foldl_apply_entry_perm hperm hnodup df_init colNames_df_init
  refine ⟨henc, ?_⟩
  simp only [preprocess_input, henc,
    getCol_perm d1 d2 hperm hnodup "Medical History",
    getCol_perm d1 d2 hperm hnodup "Age"]

/-- Witness instantiating `c9_encoding_deterministic` on two orderings
of the same two-entry dictionary. -/
theorem c9_witness :
    ([("Age", Value.num 30), ("Medical History", Value.str "none")].Perm
      [("Medical History", Value.str "none"), ("Age", Value.num 30)]) ∧
    encode_features [("Age", Value.num 30),
        ("Medical History", Value.str "none")] =
      encode_features [("Medical History", Value.str "none"),
        ("Age", Value.num 30)] ∧
    preprocess_input witnessScaler witnessScalerB
        [("Age", Value.num 30), ("Medical History", Value.str "none")] =
      preprocess_input witnessScaler witnessScalerB
        [("Medical History", Value.str "none"), ("Age", Value.num 30)] := by
  have hperm : ([("Age", Value.num 30),
      ("Medical History", Value.str "none")].Perm
      [("Medical History", Value.str "none"), ("Age", Value.num 30)]) :=
    List.Perm.swap _ _ []
  have h := c9_encoding_deterministic witnessScaler witnessScalerB _ _
    hperm (by decide)
  exact ⟨hperm, h.1, h.2⟩

/-- C5 counterexample: the input `{"Medical History": 5}` lacks the key
"Age", yet `predict` fails with the AttributeError raised by `.lower()`
on the non-string Medical History value, not with an error identifying
the missing key. -/
theorem c5_counterexample :
    getCol [("Medical History", Value.num 5)] "Age" = none ∧
    predict witnessModel witnessModelB witnessScaler witnessScalerB
        [("Medical History", Value.num 5)]
      = .error (.attributeError "lower") ∧
    (∀ k : String, (PyError.attributeError "lower") ≠ .keyError k) := by
  refine ⟨rfl, rfl, ?_⟩
  intro k h
  cases h
